import Mathlib

/-!
Verification of the custom-code delivery subsystem of `easy-spread`
(`src/custom-client/custom_patch.py`).

The Python module is shallowly embedded below:

* the request-id counter `_next_id` and the pending mapping `_pending`
  become explicit state (`issuedIds`, `CorState`);
* Python dicts become association lists (`Dict`), and object identity for
  the `message.copy()` step is modelled with an explicit heap of
  dict references (`Heap`);
* `base64.b64decode` / `str.encode("utf-8")` / `bytes.decode("utf-8")`
  are modelled over byte lists (`b64decode`, `utf8encode`, `utf8decode`);
* the filesystem (`/custom_pkgs`, `mkdir`, `write_text`) and `sys.path`
  become fields of `SysState`;
* the async control flow of `apply_custom_patch` is modelled as a pure
  function of the state together with an oracle describing the host's
  reply to the token exchange (`TokenOutcome`) and the outcome of the
  HTTP fetch (`FetchOutcome`).
-/

namespace CustomPatch

/-! ## Request-id assignment (`post_and_wait`, lines 28-47)

`post_and_wait` reads the module-global `_next_id`, uses it as the
`request_id` of the outgoing message and increments the counter.  The
`try/except` around `globalThis.postMessage` catches transmission
failures and only logs them, so the counter step is the same whether or
not transmission fails.  `issuedIds n bs` is the list of request ids
issued by a sequence of `post_and_wait` calls whose transmission
failures are described by `bs`, starting from counter value `n`
(the module initialises `_next_id = 1`). -/

/-- One `post_and_wait` id assignment: returns the issued id and the new
counter.  The transmission-failure flag is taken (to reflect that a call
may fail to transmit) but does not influence the counter, exactly as in
the source, where the `except` branch only logs. -/
def postAndWaitIdStep (n : Nat) (_txFails : Bool) : Nat × Nat :=
  (n, n + 1)

/-- Ids issued by a run of `post_and_wait` calls with transmission-failure
pattern `bs`, starting from counter `n`. -/
def issuedIds : Nat → List Bool → List Nat
  | _, [] => []
  | n, b :: bs =>
    (postAndWaitIdStep n b).1 :: issuedIds (postAndWaitIdStep n b).2 bs

/-! ## Request correlator (`_pending`, `_on_message`, lines 9-24, 37-38)

`_pending` maps request ids to not-yet-resolved futures.  We model the
correlator state as the list of pending (registered, unresolved) ids
together with the list of completed futures and the data each was
completed with.  `register` is the `_pending[request_id] = fut`
assignment in `post_and_wait`; `resolve` is the body of `_on_message`:
`if request_id in _pending: fut = _pending.pop(request_id);
fut.set_result(data)`. -/

/-- A Python scalar value as it appears in the messages of this module. -/
inductive PVal where
  | vint (n : Nat)
  | vstr (s : String)
  deriving DecidableEq, Repr

/-- A Python dict with string keys, as an association list (first match
wins on lookup, like dict key identity). -/
abbrev Dict := List (String × PVal)

/-- Correlator state: `pending` is the key set of `_pending` (ids whose
future is registered and not yet resolved); `results` records, most
recent first, each future completion performed by `_on_message`. -/
structure CorState where
  pending : List Nat
  results : List (Nat × Dict)
  deriving DecidableEq, Repr

/-- `_pending[request_id] = fut` with a fresh future (line 37-38). -/
def register (s : CorState) (id : Nat) : CorState :=
  { s with pending := s.pending ++ [id] }

/-- The body of `_on_message` once `request_id` has been extracted
(lines 20-22): if the id is pending, pop it and complete its future with
the message data; otherwise do nothing. -/
def resolve (s : CorState) (id : Nat) (v : Dict) : CorState :=
  if id ∈ s.pending then
    { pending := s.pending.erase id, results := (id, v) :: s.results }
  else s

/-- The value a given id's future was completed with, if any (first =
most recent completion). -/
def resultOf (s : CorState) (id : Nat) : Option Dict :=
  s.results.lookup id

/-- `data.get("request_id")`, which `_on_message` then tests for
membership in `_pending`; a missing or non-integer value is never a
pending key. -/
def getRequestId (d : Dict) : Option Nat :=
  match d.lookup "request_id" with
  | some (PVal.vint n) => some n
  | _ => none

/-- An inbound `message` event: either `event.data.to_py()` raises (the
`except` branch of `_on_message` logs and swallows it) or it yields a
dict. -/
inductive Event where
  | decodeFail
  | msg (data : Dict)
  deriving DecidableEq, Repr

/-- `_on_message` (lines 15-24): total — every failure path is caught. -/
def onMessage (s : CorState) (ev : Event) : CorState :=
  match ev with
  | Event.decodeFail => s
  | Event.msg d =>
      match getRequestId d with
      | some id => resolve s id d
      | none => s

/-! ## Dict objects and `message.copy()` (`post_and_wait`, lines 34-35)

`message = message.copy()` allocates a fresh dict object holding a copy
of the caller's entries and rebinds the local name `message` to it;
`message["request_id"] = request_id` then mutates only that fresh
object.  Object identity matters here, so dicts live in an explicit
heap mapping references to dict contents. -/

/-- Python dict assignment `d[k] = v`: replace the value in place if the
key exists (keeping its position), else append the new entry at the
end (insertion order). -/
def dictSet (d : Dict) (k : String) (v : PVal) : Dict :=
  if (d.lookup k).isSome then
    d.map (fun kv => if kv.1 = k then (k, v) else kv)
  else d ++ [(k, v)]

/-- A heap of dict objects, keyed by reference. -/
abbrev Heap := List (Nat × Dict)

/-- Contents of the dict object at reference `r`. -/
def heapGet (h : Heap) (r : Nat) : Dict := (h.lookup r).getD []

/-- Overwrite the dict object at reference `r`. -/
def heapSet : Heap → Nat → Dict → Heap
  | [], _, _ => []
  | (r', d') :: rest, r, d =>
    if r' = r then (r', d) :: rest else (r', d') :: heapSet rest r d

/-- A reference not yet used by any object in the heap. -/
def freshRef (h : Heap) : Nat := (h.map Prod.fst).foldr max 0 + 1

/-- The message-manipulation steps of `post_and_wait` (lines 34-35):
copy the caller's dict at `r` into a freshly allocated object, then set
`"request_id"` on the copy.  Returns the new heap and the reference of
the transmitted dict. -/
def postAndWaitMsgStep (h : Heap) (r : Nat) (rid : Nat) : Heap × Nat :=
  let r2 := freshRef h
  let h1 := h ++ [(r2, heapGet h r)]
  let h2 := heapSet h1 r2 (dictSet (heapGet h1 r2) "request_id" (PVal.vint rid))
  (h2, r2)

/-! ## The outbound token-request message (`get_ory_token`, line 50)

`get_ory_token` calls `post_and_wait({ "type": "ory_tmp_auth_header" })`;
`post_and_wait` transmits a copy of that dict with `"request_id"` set to
the freshly issued id. -/

/-- The message literal sent by `get_ory_token` (line 50). -/
def oryAuthMessage : Dict := [("type", PVal.vstr "ory_tmp_auth_header")]

/-- The dict `post_and_wait` transmits for caller message `m` and issued
request id `rid`: the copy of `m` with `"request_id"` set (lines 34-35,
41-42). -/
def transmittedDict (m : Dict) (rid : Nat) : Dict :=
  dictSet m "request_id" (PVal.vint rid)

/-! ## Transport encoding (`install_virtual_package`, line 92)

Line 92 is `abs_path.write_text(base64.b64decode(src).decode("utf-8"),
encoding="utf-8")`.  Byte strings are lists of naturals below 256;
`b64encode` is the standard base64 encoder (the inverse direction, used
to state the round-trip claim), `b64decode` models
`base64.b64decode` (non-alphabet characters are discarded, then
four-character groups are decoded, padding only at the end), and
`utf8decode`/`utf8encode` model `bytes.decode("utf-8")` /
`str.encode("utf-8")`: CPython's strict UTF-8 codec rejects lone
continuation bytes, truncated sequences, overlong encodings, surrogate
code points and code points above U+10FFFF. -/

/-- The base64 alphabet: the character for a 6-bit value. -/
def b64tbl (n : Nat) : Nat :=
  if n < 26 then 65 + n
  else if n < 52 then 97 + (n - 26)
  else if n < 62 then 48 + (n - 52)
  else if n = 62 then 43
  else 47

/-- Inverse of the base64 alphabet: the 6-bit value of a character, if
it is in the alphabet. -/
def b64inv (c : Nat) : Option Nat :=
  if 65 ≤ c ∧ c ≤ 90 then some (c - 65)
  else if 97 ≤ c ∧ c ≤ 122 then some (26 + (c - 97))
  else if 48 ≤ c ∧ c ≤ 57 then some (52 + (c - 48))
  else if c = 43 then some 62
  else if c = 47 then some 63
  else none

/-- Standard base64 encoding of a byte string (`base64.b64encode`),
three bytes to four characters, with `=` (61) padding. -/
def b64encode : List Nat → List Nat
  | [] => []
  | [a] => [b64tbl (a / 4), b64tbl (a % 4 * 16), 61, 61]
  | [a, b] => [b64tbl (a / 4), b64tbl (a % 4 * 16 + b / 16), b64tbl (b % 16 * 4), 61]
  | a :: b :: c :: rest =>
      b64tbl (a / 4) :: b64tbl (a % 4 * 16 + b / 16) :: b64tbl (b % 16 * 4 + c / 64)
        :: b64tbl (c % 64) :: b64encode rest

/-- Characters `base64.b64decode` keeps: the alphabet and `=`. -/
def isB64Char (c : Nat) : Bool := (b64inv c).isSome || c == 61

/-- Decode a base64 character stream four characters at a time; `none`
models `binascii.Error`.  Padding is accepted only in the final group
(Python's leniency about non-zero trailing bits is kept: they are
dropped, not rejected). -/
def b64decodeChunks : List Nat → Option (List Nat)
  | [] => some []
  | c1 :: c2 :: c3 :: c4 :: rest =>
    (match b64inv c1, b64inv c2 with
    | some x, some y =>
      if c3 = 61 then
        if c4 = 61 ∧ rest = [] then some [x * 4 + y / 16] else none
      else
        match b64inv c3 with
        | some z =>
          if c4 = 61 then
            if rest = [] then some [x * 4 + y / 16, y % 16 * 16 + z / 4] else none
          else
            match b64inv c4 with
            | some w =>
              (b64decodeChunks rest).map
                (fun tail =>
                  (x * 4 + y / 16) :: (y % 16 * 16 + z / 4) ::
                    (z % 4 * 64 + w) :: tail)
            | none => none
        | none => none
    | _, _ => none)
  | _ => none
  termination_by structural s => s

/-- `base64.b64decode(src)`: discard characters outside the alphabet,
then decode; `none` models a raised `binascii.Error`. -/
def b64decode (s : List Nat) : Option (List Nat) :=
  b64decodeChunks (s.filter isB64Char)

/-- UTF-8 continuation byte test. -/
def isCont (b : Nat) : Bool := 128 ≤ b && b ≤ 191

/-- UTF-8 encoding of one code point (`str.encode("utf-8")`, per
character). -/
def utf8encodeChar (c : Nat) : List Nat :=
  if c < 128 then [c]
  else if c < 2048 then [192 + c / 64, 128 + c % 64]
  else if c < 65536 then [224 + c / 4096, 128 + c / 64 % 64, 128 + c % 64]
  else [240 + c / 262144, 128 + c / 4096 % 64, 128 + c / 64 % 64, 128 + c % 64]

/-- UTF-8 encoding of a string of code points. -/
def utf8encode : List Nat → List Nat
  | [] => []
  | c :: cs => utf8encodeChar c ++ utf8encode cs

/-- Strict UTF-8 decoding of a byte string (`bytes.decode("utf-8")`);
`none` models a raised `UnicodeDecodeError`.  Lead-byte ranges follow
CPython: `C2..DF`, `E0..EF` (with `E0 A0..` and excluding surrogates
`ED A0..`), `F0..F4` (with `F0 90..` and `F4 ..8F`). -/
def utf8decode : List Nat → Option (List Nat)
  | [] => some []
  | b :: rest =>
    if b < 128 then (utf8decode rest).map (b :: ·)
    else if b < 194 then none
    else if b ≤ 223 then
      match rest with
      | b1 :: rest2 =>
        if isCont b1 then
          (utf8decode rest2).map ((((b - 192) * 64 + (b1 - 128))) :: ·)
        else none
      | [] => none
    else if b ≤ 239 then
      match rest with
      | b1 :: b2 :: rest2 =>
        if isCont b1 ∧ isCont b2 ∧ (b = 224 → 160 ≤ b1) ∧ (b = 237 → b1 ≤ 159) then
          (utf8decode rest2).map
            ((((b - 224) * 4096 + (b1 - 128) * 64 + (b2 - 128))) :: ·)
        else none
      | _ => none
    else if b ≤ 244 then
      match rest with
      | b1 :: b2 :: b3 :: rest2 =>
        if isCont b1 ∧ isCont b2 ∧ isCont b3 ∧ (b = 240 → 144 ≤ b1) ∧
            (b = 244 → b1 ≤ 143) then
          (utf8decode rest2).map
            ((((b - 240) * 262144 + (b1 - 128) * 4096 + (b2 - 128) * 64 +
              (b3 - 128))) :: ·)
        else none
      | _ => none
    else none
  termination_by structural l => l

/-- The bytes `install_virtual_package` writes to disk for one file
(line 92): `base64.b64decode(src)`, then `.decode("utf-8")`, then
`write_text(..., encoding="utf-8")` re-encodes the decoded text as
UTF-8.  `none` models a raised exception (no write happens). -/
def installFileBytes (src : List Nat) : Option (List Nat) :=
  (b64decode src).bind (fun bs => (utf8decode bs).map utf8encode)


/-! ## Filesystem, `sys.path` and the patch sequence
(`_ensure_virtual_root`, `install_virtual_package`, `get_data`,
`apply_custom_patch`, lines 54-107)

The interpreter-side state the module touches is collected in
`SysState`.  The async control flow of `apply_custom_patch` is a pure
function of that state and of an oracle describing the host's token
reply (`TokenOutcome`) and the outcome of the HTTP fetch
(`FetchOutcome`); the second component of the result is the exception
that escaped the run, if any. -/

/-- `VIRTUAL_ROOT = "/custom_pkgs"` (line 13). -/
def VIRTUAL_ROOT : String := "/custom_pkgs"

/-- A code bundle as delivered in the fetched JSON's `"code"` field:
relative path to base64 text (characters as byte values). -/
abbrev Bundle := List (String × List Nat)

/-- Observable interpreter-side state: `sys.path`, the set of existing
directories, the files on disk (absolute path to bytes), the number of
registered `"message"` listeners, counters of token requests posted and
fetches started, and the correlator globals `_next_id` / `_pending`. -/
structure SysState where
  path : List String
  dirs : List String
  files : List (String × List Nat)
  listeners : Nat
  tokenRequests : Nat
  fetches : Nat
  nextId : Nat
  pending : List Nat
  deriving DecidableEq, Repr

/-- `_ensure_virtual_root` (lines 65-75): create `/custom_pkgs` (with
parents) if missing, then append it to `sys.path` only if it is not
already present. -/
def ensureVirtualRoot (s : SysState) : SysState :=
  let s1 := if VIRTUAL_ROOT ∈ s.dirs then s
    else { s with dirs := VIRTUAL_ROOT :: s.dirs }
  if VIRTUAL_ROOT ∈ s1.path then s1
  else { s1 with path := s1.path ++ [VIRTUAL_ROOT] }

/-- `Path.parent` of a POSIX path: drop the last component. -/
def parentOf (p : String) : String :=
  String.intercalate "/" ((p.splitOn "/").dropLast)

/-- Overwrite-or-create semantics of `write_text` on the file table. -/
def setFile (fs : List (String × List Nat)) (p : String)
    (content : List Nat) : List (String × List Nat) :=
  if (fs.lookup p).isSome then
    fs.map (fun kv => if kv.1 = p then (p, content) else kv)
  else fs ++ [(p, content)]

/-- The exception that escapes a patch run, if any. -/
inductive RunErr where
  | tokenExchange
  | network
  | jsonParse
  | keyError
  | encoding
  deriving DecidableEq, Repr

/-- The file loop of `install_virtual_package` (lines 85-92): for each
entry, make the parent directory, then decode and write.  The decode
(the argument of `write_text`) is evaluated before the write, so a
decode failure aborts with the parent directory made but no file
written, and the remaining entries untouched (earlier writes stay). -/
def installFiles (s : SysState) : Bundle → SysState × Option RunErr
  | [] => (s, none)
  | (relpath, src) :: rest =>
      let abs := VIRTUAL_ROOT ++ "/" ++ relpath
      let s1 := { s with dirs := parentOf abs :: s.dirs }
      match installFileBytes src with
      | some bytes =>
          installFiles { s1 with files := setFile s1.files abs bytes } rest
      | none => (s1, some RunErr.encoding)

/-- `install_virtual_package` (lines 78-92): ensure the root exists and
is on `sys.path`, then write each delivered file. -/
def installVirtualPackage (s : SysState) (b : Bundle) :
    SysState × Option RunErr :=
  installFiles (ensureVirtualRoot s) b

/-- The `"value"` field of the host's token reply as
`res.get("value")` sees it (line 51): a string, or anything else
(absent, `None`, non-string). -/
inductive TokVal where
  | vstr (t : String)
  | other
  deriving DecidableEq, Repr

/-- Outcome of the token exchange awaited by `get_ory_token`: either the
host's reply arrives (with its `"value"` field) or awaiting the reply
raises. -/
inductive TokenOutcome where
  | reply (v : TokVal)
  | raise
  deriving DecidableEq, Repr

/-- What `response.json()` yields, as far as this module reads it:
parsing raises, or an object whose `"code"` field (when present) is a
bundle. -/
inductive BodyJson where
  | malformed
  | obj (code : Option Bundle)
  deriving DecidableEq, Repr

/-- Outcome of `fetch(...)` (line 55): the promise rejects (network
error), or it resolves to a response with an HTTP status and a body.
Note that a response with a non-2xx status still resolves. -/
inductive FetchOutcome where
  | netError
  | resp (status : Nat) (body : BodyJson)
  deriving DecidableEq, Repr

/-- `get_data` (lines 54-63): await the fetch, then parse the body as
JSON and return it.  The response's HTTP status is never inspected. -/
def getData : FetchOutcome → Except RunErr (Option Bundle)
  | FetchOutcome.netError => Except.error RunErr.network
  | FetchOutcome.resp _ body =>
      match body with
      | BodyJson.malformed => Except.error RunErr.jsonParse
      | BodyJson.obj code => Except.ok code

/-- `apply_custom_patch` (lines 94-107).  If `VIRTUAL_ROOT` is already
on `sys.path`, return at once.  Otherwise: register the listener, run
the token exchange (consuming a request id, registering its pending
entry and posting the request), remove the listener once the reply
arrives, and — when the token is a non-empty string — fetch the bundle,
log it, ensure the root and install `data["code"]`.  A raise while
awaiting the token reply escapes before `removeEventListener`
(line 101 is only reached on the success path). -/
def applyCustomPatch (s : SysState) (tok : TokenOutcome) (f : FetchOutcome) :
    SysState × Option RunErr :=
  if VIRTUAL_ROOT ∈ s.path then (s, none)
  else
    let s1 : SysState := { s with listeners := s.listeners + 1 }
    let rid := s1.nextId
    let s2 : SysState := { s1 with
      nextId := s1.nextId + 1
      pending := s1.pending ++ [rid]
      tokenRequests := s1.tokenRequests + 1 }
    match tok with
    | TokenOutcome.raise => (s2, some RunErr.tokenExchange)
    | TokenOutcome.reply v =>
        let s3 : SysState := { s2 with pending := s2.pending.erase rid }
        let s4 : SysState := { s3 with listeners := s3.listeners - 1 }
        match v with
        | TokVal.vstr t =>
            if t ≠ "" then
              let s5 : SysState := { s4 with fetches := s4.fetches + 1 }
              match getData f with
              | Except.error e => (s5, some e)
              | Except.ok code =>
                  let s6 := ensureVirtualRoot s5
                  match code with
                  | none => (s6, some RunErr.keyError)
                  | some bundle => installVirtualPackage s6 bundle
            else (s4, none)
        | TokVal.other => (s4, none)

/-- A sequence of operations touching the virtual root: direct
`_ensure_virtual_root` calls and `install_virtual_package` runs. -/
inductive RootOp where
  | ensure
  | install (b : Bundle)

/-- Run a sequence of root operations. -/
def runRootOps (s : SysState) : List RootOp → SysState
  | [] => s
  | RootOp.ensure :: ops => runRootOps (ensureVirtualRoot s) ops
  | RootOp.install b :: ops => runRootOps (installVirtualPackage s b).1 ops

end CustomPatch


namespace CustomPatch

/-! ## Helper lemmas -/

theorem issuedIds_eq_range (n : Nat) (bs : List Bool) :
    issuedIds n bs = List.range' n bs.length := by
  induction bs generalizing n with
  | nil => rfl
  | cons b bs ih =>
      simp [issuedIds, postAndWaitIdStep, List.range'_succ, ih]

theorem le_foldr_max (l : List Nat) (r : Nat) (hr : r ∈ l) :
    r ≤ l.foldr max 0 := by
  induction l with
  | nil => cases hr
  | cons a l ih =>
      rcases List.mem_cons.mp hr with h | h
      · subst h; exact Nat.le_max_left _ _
      · exact Nat.le_trans (ih h) (Nat.le_max_right _ _)

theorem lt_freshRef (h : Heap) (r : Nat) (hr : r ∈ h.map Prod.fst) :
    r < freshRef h :=
  Nat.lt_succ_of_le (le_foldr_max _ _ hr)

theorem freshRef_not_mem (h : Heap) : freshRef h ∉ h.map Prod.fst := by
  intro hmem
  exact absurd (lt_freshRef h _ hmem) (Nat.lt_irrefl _)

theorem heapGet_append_singleton_ne (h : Heap) (r r2 : Nat) (d : Dict)
    (hne : r ≠ r2) : heapGet (h ++ [(r2, d)]) r = heapGet h r := by
  have hb : (r == r2) = false := beq_false_of_ne hne
  have : ((([(r2, d)] : Heap)).lookup r) = none := by
    simp [List.lookup, hb]
  simp [heapGet, List.lookup_append, this]

theorem heapGet_append_singleton_self (h : Heap) (r2 : Nat) (d : Dict)
    (hfresh : r2 ∉ h.map Prod.fst) : heapGet (h ++ [(r2, d)]) r2 = d := by
  have hnone : h.lookup r2 = none := by
    rw [List.lookup_eq_none_iff]
    intro p hp
    simp only [bne_iff_ne]
    intro hEq
    exact hfresh (hEq ▸ List.mem_map_of_mem Prod.fst hp)
  simp [heapGet, List.lookup_append, hnone, List.lookup]

theorem lookup_heapSet_ne (h : Heap) (r r2 : Nat) (d : Dict)
    (hne : r ≠ r2) : (heapSet h r2 d).lookup r = h.lookup r := by
  induction h with
  | nil => rfl
  | cons p rest ih =>
      obtain ⟨r', d'⟩ := p
      by_cases hr : r' = r2
      · subst hr
        have hb : (r == r') = false := beq_false_of_ne hne
        simp [heapSet, List.lookup, hb]
      · by_cases hrr : r = r'
        · subst hrr
          simp [heapSet, hr, List.lookup]
        · have hb : (r == r') = false := beq_false_of_ne hrr
          simp [heapSet, hr, List.lookup, hb, ih]

theorem heapGet_heapSet_ne (h : Heap) (r r2 : Nat) (d : Dict)
    (hne : r ≠ r2) : heapGet (heapSet h r2 d) r = heapGet h r := by
  simp [heapGet, lookup_heapSet_ne h r r2 d hne]

theorem heapGet_heapSet_self (h : Heap) (r2 : Nat) (d : Dict)
    (hmem : r2 ∈ h.map Prod.fst) : heapGet (heapSet h r2 d) r2 = d := by
  induction h with
  | nil => cases hmem
  | cons p rest ih =>
      obtain ⟨r', d'⟩ := p
      by_cases hr : r' = r2
      · subst hr
        simp [heapSet, heapGet, List.lookup]
      · have hmem' : r2 ∈ rest.map Prod.fst := by
          rcases (by simpa using hmem : r2 = r' ∨ r2 ∈ rest.map Prod.fst) with hh | hh
          · exact absurd hh.symm hr
          · exact hh
        have hb : (r2 == r') = false := beq_false_of_ne (fun hEq => hr hEq.symm)
        simp [heapSet, hr, heapGet, List.lookup, hb]
        simpa [heapGet] using ih hmem'

theorem b64inv_b64tbl : ∀ n, n < 64 → b64inv (b64tbl n) = some n := by decide

theorem isB64Char_tbl : ∀ n, n < 64 → isB64Char (b64tbl n) = true := by decide

theorem isB64Char_pad : isB64Char 61 = true := rfl

theorem b64tbl_ne_pad : ∀ n, n < 64 → ¬ b64tbl n = 61 := by decide

theorem b64decodeChunks_b64encode (l : List Nat) (h : ∀ b ∈ l, b < 256) :
    b64decodeChunks (b64encode l) = some l := by
  induction l using b64encode.induct with
  | case1 => rfl
  | case2 a =>
      have ha : a < 256 := h a (by simp)
      have e1 := b64inv_b64tbl (a / 4) (by omega)
      have e2 := b64inv_b64tbl (a % 4 * 16) (by omega)
      simp [b64encode, b64decodeChunks, e1, e2] <;> omega
  | case3 a b =>
      have ha : a < 256 := h a (by simp)
      have hb : b < 256 := h b (by simp)
      have e1 := b64inv_b64tbl (a / 4) (by omega)
      have e2 := b64inv_b64tbl (a % 4 * 16 + b / 16) (by omega)
      have e3 := b64inv_b64tbl (b % 16 * 4) (by omega)
      have hp3 : ¬ b64tbl (b % 16 * 4) = 61 := b64tbl_ne_pad _ (by omega)
      simp [b64encode, b64decodeChunks, e1, e2, e3, hp3] <;> omega
  | case4 a b c rest ih =>
      have ha : a < 256 := h a (by simp)
      have hb : b < 256 := h b (by simp)
      have hc : c < 256 := h c (by simp)
      have hrest : ∀ x ∈ rest, x < 256 := fun x hx => h x (by simp [hx])
      have e1 := b64inv_b64tbl (a / 4) (by omega)
      have e2 := b64inv_b64tbl (a % 4 * 16 + b / 16) (by omega)
      have e3 := b64inv_b64tbl (b % 16 * 4 + c / 64) (by omega)
      have e4 := b64inv_b64tbl (c % 64) (by omega)
      have hp3 : ¬ b64tbl (b % 16 * 4 + c / 64) = 61 := b64tbl_ne_pad _ (by omega)
      have hp4 : ¬ b64tbl (c % 64) = 61 := b64tbl_ne_pad _ (by omega)
      simp [b64encode, b64decodeChunks, e1, e2, e3, e4, hp3, hp4, ih hrest] <;> omega

theorem filter_b64encode (l : List Nat) (h : ∀ b ∈ l, b < 256) :
    (b64encode l).filter isB64Char = b64encode l := by
  induction l using b64encode.induct with
  | case1 => rfl
  | case2 a =>
      have ha : a < 256 := h a (by simp)
      have f1 : isB64Char (b64tbl (a / 4)) = true := isB64Char_tbl _ (by omega)
      have f2 : isB64Char (b64tbl (a % 4 * 16)) = true := isB64Char_tbl _ (by omega)
      simp [b64encode, List.filter, f1, f2, isB64Char_pad]
  | case3 a b =>
      have ha : a < 256 := h a (by simp)
      have hb : b < 256 := h b (by simp)
      have f1 : isB64Char (b64tbl (a / 4)) = true := isB64Char_tbl _ (by omega)
      have f2 : isB64Char (b64tbl (a % 4 * 16 + b / 16)) = true :=
        isB64Char_tbl _ (by omega)
      have f3 : isB64Char (b64tbl (b % 16 * 4)) = true := isB64Char_tbl _ (by omega)
      simp [b64encode, List.filter, f1, f2, f3, isB64Char_pad]
  | case4 a b c rest ih =>
      have ha : a < 256 := h a (by simp)
      have hb : b < 256 := h b (by simp)
      have hc : c < 256 := h c (by simp)
      have hrest : ∀ x ∈ rest, x < 256 := fun x hx => h x (by simp [hx])
      have f1 : isB64Char (b64tbl (a / 4)) = true := isB64Char_tbl _ (by omega)
      have f2 : isB64Char (b64tbl (a % 4 * 16 + b / 16)) = true :=
        isB64Char_tbl _ (by omega)
      have f3 : isB64Char (b64tbl (b % 16 * 4 + c / 64)) = true :=
        isB64Char_tbl _ (by omega)
      have f4 : isB64Char (b64tbl (c % 64)) = true := isB64Char_tbl _ (by omega)
      simp [b64encode, List.filter, f1, f2, f3, f4, ih hrest]

theorem b64decode_b64encode (l : List Nat) (h : ∀ b ∈ l, b < 256) :
    b64decode (b64encode l) = some l := by
  rw [b64decode, filter_b64encode l h, b64decodeChunks_b64encode l h]


theorem utf8decode_nil : utf8decode [] = some [] := rfl

theorem utf8decode_cons (b : Nat) (rest : List Nat) :
    utf8decode (b :: rest) =
    (if b < 128 then (utf8decode rest).map (b :: ·)
    else if b < 194 then none
    else if b ≤ 223 then
      match rest with
      | b1 :: rest2 =>
        if isCont b1 then
          (utf8decode rest2).map ((((b - 192) * 64 + (b1 - 128))) :: ·)
        else none
      | [] => none
    else if b ≤ 239 then
      match rest with
      | b1 :: b2 :: rest2 =>
        if isCont b1 ∧ isCont b2 ∧ (b = 224 → 160 ≤ b1) ∧ (b = 237 → b1 ≤ 159) then
          (utf8decode rest2).map
            ((((b - 224) * 4096 + (b1 - 128) * 64 + (b2 - 128))) :: ·)
        else none
      | _ => none
    else if b ≤ 244 then
      match rest with
      | b1 :: b2 :: b3 :: rest2 =>
        if isCont b1 ∧ isCont b2 ∧ isCont b3 ∧ (b = 240 → 144 ≤ b1) ∧
            (b = 244 → b1 ≤ 143) then
          (utf8decode rest2).map
            ((((b - 240) * 262144 + (b1 - 128) * 4096 + (b2 - 128) * 64 +
              (b3 - 128))) :: ·)
        else none
      | _ => none
    else none) := by
  rcases rest with _ | ⟨b1, _ | ⟨b2, _ | ⟨b3, r⟩⟩⟩ <;> rfl

theorem utf8encode_utf8decode (bs : List Nat) :
    ∀ cs, utf8decode bs = some cs → utf8encode cs = bs := by
  induction bs using utf8decode.induct with
  | case1 =>
      intro cs hcs
      rw [utf8decode_nil] at hcs
      obtain rfl : ([] : List Nat) = cs := Option.some.inj hcs
      rfl
  | case2 b rest hlt ih =>
      intro cs hcs
      rw [utf8decode_cons, if_pos hlt] at hcs
      simp only [Option.map_eq_some'] at hcs
      obtain ⟨tail, htail, rfl⟩ := hcs
      simp [utf8encode, utf8encodeChar, hlt, ih _ htail]
  | case3 b rest h1 h2 =>
      intro cs hcs
      rw [utf8decode_cons, if_neg h1, if_pos h2] at hcs
      cases hcs
  | case4 b h1 h2 h3 b1 rest2 hcont ih =>
      intro cs hcs
      rw [utf8decode_cons, if_neg h1, if_neg h2, if_pos h3] at hcs
      simp only [if_pos hcont, Option.map_eq_some'] at hcs
      obtain ⟨tail, htail, rfl⟩ := hcs
      simp only [isCont, Bool.and_eq_true, decide_eq_true_eq] at hcont
      have e1 : ¬ ((b - 192) * 64 + (b1 - 128) < 128) := by omega
      have e2 : (b - 192) * 64 + (b1 - 128) < 2048 := by omega
      simp [utf8encode, utf8encodeChar, e1, e2, ih _ htail]
      omega
  | case5 b h1 h2 h3 b1 rest2 hcont =>
      intro cs hcs
      rw [utf8decode_cons, if_neg h1, if_neg h2, if_pos h3] at hcs
      simp only [if_neg hcont] at hcs
      cases hcs
  | case6 b h1 h2 h3 =>
      intro cs hcs
      rw [utf8decode_cons, if_neg h1, if_neg h2, if_pos h3] at hcs
      simp at hcs
  | case7 b h1 h2 h3 h4 b1 b2 rest2 hcond ih =>
      intro cs hcs
      rw [utf8decode_cons, if_neg h1, if_neg h2, if_neg h3, if_pos h4] at hcs
      simp only [if_pos hcond, Option.map_eq_some'] at hcs
      obtain ⟨tail, htail, rfl⟩ := hcs
      obtain ⟨hc1, hc2, hv1, hv2⟩ := hcond
      simp only [isCont, Bool.and_eq_true, decide_eq_true_eq] at hc1 hc2
      have hlow : ¬ ((b - 224) * 4096 + (b1 - 128) * 64 + (b2 - 128) < 2048) := by
        rcases Nat.eq_or_lt_of_le (by omega : 224 ≤ b) with hEq | hGt
        · have := hv1 hEq.symm
          omega
        · omega
      have e1 : ¬ ((b - 224) * 4096 + (b1 - 128) * 64 + (b2 - 128) < 128) := by
        omega
      have e2 : (b - 224) * 4096 + (b1 - 128) * 64 + (b2 - 128) < 65536 := by omega
      simp [utf8encode, utf8encodeChar, e1, hlow, e2, ih _ htail]
      omega
  | case8 b h1 h2 h3 h4 b1 b2 rest2 hcond =>
      intro cs hcs
      rw [utf8decode_cons, if_neg h1, if_neg h2, if_neg h3, if_pos h4] at hcs
      simp only [if_neg hcond] at hcs
      cases hcs
  | case9 b rest h1 h2 h3 h4 hshape =>
      intro cs hcs
      rcases rest with _ | ⟨x, _ | ⟨y, r⟩⟩
      · rw [utf8decode_cons, if_neg h1, if_neg h2, if_neg h3, if_pos h4] at hcs
        simp at hcs
      · rw [utf8decode_cons, if_neg h1, if_neg h2, if_neg h3, if_pos h4] at hcs
        simp at hcs
      · exact absurd rfl (hshape x y r)
  | case10 b h1 h2 h3 h4 h5 b1 b2 b3 rest2 hcond ih =>
      intro cs hcs
      rw [utf8decode_cons, if_neg h1, if_neg h2, if_neg h3, if_neg h4,
        if_pos h5] at hcs
      simp only [if_pos hcond, Option.map_eq_some'] at hcs
      obtain ⟨tail, htail, rfl⟩ := hcs
      obtain ⟨hc1, hc2, hc3, hv1, hv2⟩ := hcond
      simp only [isCont, Bool.and_eq_true, decide_eq_true_eq] at hc1 hc2 hc3
      have hlow : ¬ ((b - 240) * 262144 + (b1 - 128) * 4096 + (b2 - 128) * 64 +
          (b3 - 128) < 65536) := by
        rcases Nat.eq_or_lt_of_le (by omega : 240 ≤ b) with hEq | hGt
        · have := hv1 hEq.symm
          omega
        · omega
      have e1 : ¬ ((b - 240) * 262144 + (b1 - 128) * 4096 + (b2 - 128) * 64 +
          (b3 - 128) < 128) := by omega
      have e2 : ¬ ((b - 240) * 262144 + (b1 - 128) * 4096 + (b2 - 128) * 64 +
          (b3 - 128) < 2048) := by omega
      simp [utf8encode, utf8encodeChar, e1, e2, hlow, ih _ htail]
      omega
  | case11 b h1 h2 h3 h4 h5 b1 b2 b3 rest2 hcond =>
      intro cs hcs
      rw [utf8decode_cons, if_neg h1, if_neg h2, if_neg h3, if_neg h4,
        if_pos h5] at hcs
      simp only [if_neg hcond] at hcs
      cases hcs
  | case12 b rest h1 h2 h3 h4 h5 hshape =>
      intro cs hcs
      rcases rest with _ | ⟨x, _ | ⟨y, _ | ⟨z, r⟩⟩⟩
      · rw [utf8decode_cons, if_neg h1, if_neg h2, if_neg h3, if_neg h4,
          if_pos h5] at hcs
        simp at hcs
      · rw [utf8decode_cons, if_neg h1, if_neg h2, if_neg h3, if_neg h4,
          if_pos h5] at hcs
        simp at hcs
      · rw [utf8decode_cons, if_neg h1, if_neg h2, if_neg h3, if_neg h4,
          if_pos h5] at hcs
        simp at hcs
      · exact absurd rfl (hshape x y z r)
  | case13 b rest h1 h2 h3 h4 h5 =>
      intro cs hcs
      rw [utf8decode_cons, if_neg h1, if_neg h2, if_neg h3, if_neg h4,
        if_neg h5] at hcs
      cases hcs



theorem installFiles_path (b : Bundle) (s : SysState) :
    (installFiles s b).1.path = s.path := by
  induction b generalizing s with
  | nil => rfl
  | cons e rest ih =>
      obtain ⟨relpath, src⟩ := e
      cases hsrc : installFileBytes src with
      | some bytes => simp [installFiles, hsrc, ih]
      | none => simp [installFiles, hsrc]

theorem installVirtualPackage_path (s : SysState) (b : Bundle) :
    (installVirtualPackage s b).1.path = (ensureVirtualRoot s).path := by
  rw [installVirtualPackage, installFiles_path]

theorem ensureVirtualRoot_path (s : SysState) :
    (ensureVirtualRoot s).path =
      if VIRTUAL_ROOT ∈ s.path then s.path else s.path ++ [VIRTUAL_ROOT] := by
  unfold ensureVirtualRoot
  by_cases h1 : VIRTUAL_ROOT ∈ s.dirs <;>
    by_cases h2 : VIRTUAL_ROOT ∈ s.path <;> simp [h1, h2]

theorem ensureVirtualRoot_dirs (s : SysState) :
    (ensureVirtualRoot s).dirs =
      if VIRTUAL_ROOT ∈ s.dirs then s.dirs else VIRTUAL_ROOT :: s.dirs := by
  unfold ensureVirtualRoot
  by_cases h1 : VIRTUAL_ROOT ∈ s.dirs <;>
    by_cases h2 : VIRTUAL_ROOT ∈ s.path <;> simp [h1, h2]

theorem mem_path_ensureVirtualRoot (s : SysState) :
    VIRTUAL_ROOT ∈ (ensureVirtualRoot s).path := by
  rw [ensureVirtualRoot_path]
  by_cases h : VIRTUAL_ROOT ∈ s.path <;> simp [h]

theorem mem_dirs_ensureVirtualRoot (s : SysState) :
    VIRTUAL_ROOT ∈ (ensureVirtualRoot s).dirs := by
  rw [ensureVirtualRoot_dirs]
  by_cases h : VIRTUAL_ROOT ∈ s.dirs <;> simp [h]

theorem ensureVirtualRoot_eq_self (t : SysState) (hd : VIRTUAL_ROOT ∈ t.dirs)
    (hp : VIRTUAL_ROOT ∈ t.path) : ensureVirtualRoot t = t := by
  unfold ensureVirtualRoot
  simp [hd, hp]

theorem ensureVirtualRoot_idem (s : SysState) :
    ensureVirtualRoot (ensureVirtualRoot s) = ensureVirtualRoot s :=
  ensureVirtualRoot_eq_self _ (mem_dirs_ensureVirtualRoot s)
    (mem_path_ensureVirtualRoot s)

theorem count_path_ensureVirtualRoot (s : SysState)
    (h : List.count VIRTUAL_ROOT s.path ≤ 1) :
    List.count VIRTUAL_ROOT (ensureVirtualRoot s).path ≤ 1 := by
  rw [ensureVirtualRoot_path]
  by_cases hm : VIRTUAL_ROOT ∈ s.path
  · simp [hm, h]
  · have hz : List.count VIRTUAL_ROOT s.path = 0 := by
      simp [List.count_eq_zero, hm]
    simp [hm, List.count_append, hz]

theorem count_path_runRootOps (ops : List RootOp) (s : SysState)
    (h : List.count VIRTUAL_ROOT s.path ≤ 1) :
    List.count VIRTUAL_ROOT (runRootOps s ops).path ≤ 1 := by
  induction ops generalizing s with
  | nil => exact h
  | cons op ops ih =>
      cases op with
      | ensure => exact ih _ (count_path_ensureVirtualRoot s h)
      | install b =>
          apply ih
          rw [installVirtualPackage_path]
          exact count_path_ensureVirtualRoot s h

/-! ## The claims -/


/-- C2: every sequence of request-id assignments performed by
`post_and_wait` yields the ids `1, 2, ..., n` — strictly increasing
integers with no repeats, starting at 1 and incrementing by 1 — and the
id consumed by a call is the same whether or not its transmission fails
(the failure pattern `bs` does not appear on the right-hand side). -/
theorem post_and_wait_ids_strictly_increasing (bs : List Bool) :
    issuedIds 1 bs = List.range' 1 bs.length ∧
      List.Pairwise (· < ·) (issuedIds 1 bs) := by
  refine ⟨issuedIds_eq_range 1 bs, ?_⟩
  rw [issuedIds_eq_range 1 bs]
  exact List.pairwise_lt_range' 1 bs.length

/-- C3: resolving a reply whose request id has no pending registration is
a no-op (the state is unchanged, and `resolve` is total, so nothing is
raised); a resolve never disturbs the pending status or the completed
result of any other id; and a registered id is completed at most once —
after `register` and a first `resolve`, a second `resolve` with a
different value changes nothing and the first result stands. -/
theorem resolve_no_op_and_at_most_once (s : CorState) (id : Nat) (v v2 : Dict)
    (hid : id ∉ s.pending) :
    resolve s id v = s ∧
    (∀ (t : CorState) (j : Nat) (w : Dict) (j' : Nat), j' ≠ j →
      ((j' ∈ (resolve t j w).pending ↔ j' ∈ t.pending) ∧
        resultOf (resolve t j w) j' = resultOf t j')) ∧
    (resultOf (resolve (resolve (register s id) id v) id v2) id = some v ∧
      resolve (resolve (register s id) id v) id v2 =
        resolve (register s id) id v) := by
  have hreg : id ∈ (register s id).pending := by
    simp [register]
  have herase : ((register s id).pending).erase id = s.pending := by
    simp only [register]
    rw [List.erase_append_right _ hid]
    simp
  have hres1 : resolve (register s id) id v =
      { pending := s.pending, results := (id, v) :: s.results } := by
    unfold resolve
    rw [if_pos hreg, herase]
    simp [register]
  refine ⟨by simp [resolve, hid], ?_, ?_⟩
  · intro t j w j' hne
    by_cases hj : j ∈ t.pending
    · constructor
      · simp [resolve, hj, List.mem_erase_of_ne hne]
      · have hb : (j' == j) = false := by simp [hne]
        simp [resolve, hj, resultOf, List.lookup_cons, hb]
    · simp [resolve, hj]
  · rw [hres1]
    constructor
    · simp [resolve, hid, resultOf]
    · simp [resolve, hid]

/-- Witness for C3 at the concrete correlator state with nothing pending,
id 5 and two distinct reply dicts. -/
theorem resolve_no_op_and_at_most_once_witness :
    (5 : Nat) ∉ (CorState.mk [] []).pending ∧
    (resolve (CorState.mk [] []) 5 [("value", PVal.vstr "a")] =
        CorState.mk [] [] ∧
    (∀ (t : CorState) (j : Nat) (w : Dict) (j' : Nat), j' ≠ j →
      ((j' ∈ (resolve t j w).pending ↔ j' ∈ t.pending) ∧
        resultOf (resolve t j w) j' = resultOf t j')) ∧
    (resultOf (resolve (resolve (register (CorState.mk [] []) 5) 5
          [("value", PVal.vstr "a")]) 5 [("value", PVal.vstr "b")]) 5 =
        some [("value", PVal.vstr "a")] ∧
      resolve (resolve (register (CorState.mk [] []) 5) 5
          [("value", PVal.vstr "a")]) 5 [("value", PVal.vstr "b")] =
        resolve (register (CorState.mk [] []) 5) 5
          [("value", PVal.vstr "a")])) :=
  ⟨by decide,
    resolve_no_op_and_at_most_once (CorState.mk [] []) 5
      [("value", PVal.vstr "a")] [("value", PVal.vstr "b")] (by decide)⟩


/-- C10: `post_and_wait` never mutates the caller's message dict: the
`request_id` entry is added only to the freshly allocated copy that is
transmitted, and the object the caller passed in holds exactly its
original entries after the call, for every input dict. -/
theorem post_and_wait_does_not_mutate_caller (h : Heap) (r rid : Nat)
    (hr : r ∈ h.map Prod.fst) :
    heapGet (postAndWaitMsgStep h r rid).1 r = heapGet h r ∧
    heapGet (postAndWaitMsgStep h r rid).1 (postAndWaitMsgStep h r rid).2 =
      dictSet (heapGet h r) "request_id" (PVal.vint rid) := by
  have hne : r ≠ freshRef h := Nat.ne_of_lt (lt_freshRef h r hr)
  simp only [postAndWaitMsgStep]
  constructor
  · rw [heapGet_heapSet_ne _ _ _ _ hne, heapGet_append_singleton_ne _ _ _ _ hne]
  · have hmem1 : freshRef h ∈ ((h ++ [(freshRef h, heapGet h r)]).map Prod.fst) := by
      simp
    rw [heapGet_heapSet_self _ _ _ hmem1,
      heapGet_append_singleton_self h _ _ (freshRef_not_mem h)]

/-- Witness for C10 at a one-object heap: reference 0 holds the dict
`{"type": "t"}` and the issued request id is 1. -/
theorem post_and_wait_does_not_mutate_caller_witness :
    (0 : Nat) ∈ ([((0 : Nat), [("type", PVal.vstr "t")])] : Heap).map Prod.fst ∧
    (heapGet (postAndWaitMsgStep [((0 : Nat), [("type", PVal.vstr "t")])] 0 1).1 0 =
        heapGet [((0 : Nat), [("type", PVal.vstr "t")])] 0 ∧
      heapGet (postAndWaitMsgStep [((0 : Nat), [("type", PVal.vstr "t")])] 0 1).1
          (postAndWaitMsgStep [((0 : Nat), [("type", PVal.vstr "t")])] 0 1).2 =
        dictSet (heapGet [((0 : Nat), [("type", PVal.vstr "t")])] 0)
          "request_id" (PVal.vint 1)) :=
  ⟨by decide,
    post_and_wait_does_not_mutate_caller
      [((0 : Nat), [("type", PVal.vstr "t")])] 0 1 (by decide)⟩

/-- C8 counterexample: the token-request message the subsystem actually
transmits carries the type tag "ory_tmp_auth_header", not
"auth_token_request" as the claim states. -/
theorem token_request_type_tag_counterexample :
    (transmittedDict oryAuthMessage 1).lookup "type" =
        some (PVal.vstr "ory_tmp_auth_header") ∧
      (transmittedDict oryAuthMessage 1).lookup "type" ≠
        some (PVal.vstr "auth_token_request") := by
  constructor <;> decide

/-- C8 (amended): every outbound token-request message transmitted from
the subsystem to the host carries the type tag "ory_tmp_auth_header"
together with an integer request_id field. -/
theorem token_request_message_fields (rid : Nat) :
    (transmittedDict oryAuthMessage rid).lookup "type" =
        some (PVal.vstr "ory_tmp_auth_header") ∧
      (transmittedDict oryAuthMessage rid).lookup "request_id" =
        some (PVal.vint rid) := by
  constructor <;> rfl


/-- C4 (amended): base64-encoding a byte sequence and installing it
through the Virtual Package Installer writes back exactly the original
bytes when the sequence is valid UTF-8; when it is not, the install
raises (UnicodeDecodeError from `.decode("utf-8")`) and writes
nothing for that file. -/
theorem installFileBytes_b64encode (bs : List Nat) (h : ∀ b ∈ bs, b < 256) :
    installFileBytes (b64encode bs) =
      if (utf8decode bs).isSome then some bs else none := by
  rw [installFileBytes, b64decode_b64encode bs h]
  cases hd : utf8decode bs with
  | none => simp [hd]
  | some cs => simp [hd, utf8encode_utf8decode bs cs hd]

/-- C4 counterexample: the single byte 0xFF — base64-encoded and fed to
the install decode — does not come back; the decode raises because 0xFF
is not valid UTF-8, so the round trip fails for this byte sequence. -/
theorem install_roundtrip_counterexample :
    installFileBytes (b64encode [255]) = none ∧
      installFileBytes (b64encode [255]) ≠ some [255] := by
  constructor <;> decide

/-- Witness for C4 at the bytes of `"x=1"`, which are valid UTF-8. -/
theorem installFileBytes_b64encode_witness :
    (∀ b ∈ [120, 61, 49], b < 256) ∧
      installFileBytes (b64encode [120, 61, 49]) =
        (if (utf8decode [120, 61, 49]).isSome then some [120, 61, 49] else none) :=
  ⟨by decide, installFileBytes_b64encode [120, 61, 49] (by decide)⟩


/-- C9: `_ensure_virtual_root` is idempotent; it creates `/custom_pkgs`
if absent and appends it to `sys.path` only when not already present
(checked by value), so after any number of ensure calls and install
runs the search path holds at most one occurrence of the root. -/
theorem ensure_virtual_root_idempotent (s : SysState) (ops : List RootOp)
    (h : List.count VIRTUAL_ROOT s.path ≤ 1) :
    ensureVirtualRoot (ensureVirtualRoot s) = ensureVirtualRoot s ∧
    VIRTUAL_ROOT ∈ (ensureVirtualRoot s).dirs ∧
    VIRTUAL_ROOT ∈ (ensureVirtualRoot s).path ∧
    (VIRTUAL_ROOT ∈ s.path → (ensureVirtualRoot s).path = s.path) ∧
    List.count VIRTUAL_ROOT (runRootOps s ops).path ≤ 1 :=
  ⟨ensureVirtualRoot_idem s, mem_dirs_ensureVirtualRoot s,
    mem_path_ensureVirtualRoot s,
    fun hm => by rw [ensureVirtualRoot_path]; simp [hm],
    count_path_runRootOps ops s h⟩

/-- Witness for C9 from the empty state, with one ensure, one install of
a one-file bundle (`"m.py"` holding base64 `"eD0x"`, i.e. `"x=1"`) and
another ensure. -/
theorem ensure_virtual_root_idempotent_witness :
    List.count VIRTUAL_ROOT (SysState.mk [] [] [] 0 0 0 1 []).path ≤ 1 ∧
    (ensureVirtualRoot (ensureVirtualRoot (SysState.mk [] [] [] 0 0 0 1 [])) =
        ensureVirtualRoot (SysState.mk [] [] [] 0 0 0 1 []) ∧
      VIRTUAL_ROOT ∈ (ensureVirtualRoot (SysState.mk [] [] [] 0 0 0 1 [])).dirs ∧
      VIRTUAL_ROOT ∈ (ensureVirtualRoot (SysState.mk [] [] [] 0 0 0 1 [])).path ∧
      (VIRTUAL_ROOT ∈ (SysState.mk [] [] [] 0 0 0 1 []).path →
        (ensureVirtualRoot (SysState.mk [] [] [] 0 0 0 1 [])).path =
          (SysState.mk [] [] [] 0 0 0 1 []).path) ∧
      List.count VIRTUAL_ROOT (runRootOps (SysState.mk [] [] [] 0 0 0 1 [])
        [RootOp.ensure, RootOp.install [("m.py", [101, 68, 48, 120])],
          RootOp.ensure]).path ≤ 1) :=
  ⟨by decide,
    ensure_virtual_root_idempotent (SysState.mk [] [] [] 0 0 0 1 [])
      [RootOp.ensure, RootOp.install [("m.py", [101, 68, 48, 120])],
        RootOp.ensure] (by decide)⟩

/-- C1: when `VIRTUAL_ROOT` is already on `sys.path`, invoking
`apply_custom_patch` returns at once with the state untouched — no
token request, no fetch, no filesystem write; hence a second invocation
after a run that installed (valid token, parsed body carrying a
`"code"` field) changes nothing. -/
theorem apply_custom_patch_idempotent_guard :
    (∀ s tok f, VIRTUAL_ROOT ∈ s.path → applyCustomPatch s tok f = (s, none)) ∧
    (∀ s t st b tok2 f2, t ≠ "" →
      applyCustomPatch
          (applyCustomPatch s (TokenOutcome.reply (TokVal.vstr t))
            (FetchOutcome.resp st (BodyJson.obj (some b)))).1 tok2 f2 =
        ((applyCustomPatch s (TokenOutcome.reply (TokVal.vstr t))
            (FetchOutcome.resp st (BodyJson.obj (some b)))).1, none)) := by
  have hshort : ∀ s tok f, VIRTUAL_ROOT ∈ s.path →
      applyCustomPatch s tok f = (s, none) := by
    intro s tok f hmem
    simp [applyCustomPatch, hmem]
  refine ⟨hshort, ?_⟩
  intro s t st b tok2 f2 ht
  apply hshort
  by_cases hmem : VIRTUAL_ROOT ∈ s.path
  · rw [hshort s _ _ hmem]
    exact hmem
  · simp [applyCustomPatch, hmem, ht, getData, installVirtualPackage_path,
      mem_path_ensureVirtualRoot]

/-- Witness for C1: the guard at a state already holding the root, and
the second invocation after an installing run from the empty state. -/
theorem apply_custom_patch_idempotent_guard_witness :
    (VIRTUAL_ROOT ∈ (SysState.mk [VIRTUAL_ROOT] [] [] 0 0 0 1 []).path ∧
      applyCustomPatch (SysState.mk [VIRTUAL_ROOT] [] [] 0 0 0 1 [])
          TokenOutcome.raise FetchOutcome.netError =
        (SysState.mk [VIRTUAL_ROOT] [] [] 0 0 0 1 [], none)) ∧
    ("tok" ≠ "" ∧
      applyCustomPatch
          (applyCustomPatch (SysState.mk [] [] [] 0 0 0 1 [])
            (TokenOutcome.reply (TokVal.vstr "tok"))
            (FetchOutcome.resp 200 (BodyJson.obj (some [])))).1
          TokenOutcome.raise FetchOutcome.netError =
        ((applyCustomPatch (SysState.mk [] [] [] 0 0 0 1 [])
            (TokenOutcome.reply (TokVal.vstr "tok"))
            (FetchOutcome.resp 200 (BodyJson.obj (some [])))).1, none)) :=
  ⟨⟨by decide,
      apply_custom_patch_idempotent_guard.1
        (SysState.mk [VIRTUAL_ROOT] [] [] 0 0 0 1 [])
        TokenOutcome.raise FetchOutcome.netError (by decide)⟩,
    ⟨by decide,
      apply_custom_patch_idempotent_guard.2
        (SysState.mk [] [] [] 0 0 0 1 []) "tok" 200 []
        TokenOutcome.raise FetchOutcome.netError (by decide)⟩⟩

/-- C7: a token reply whose value is the empty string or not a string
stops the sequence after the exchange: no fetch, no install, no error,
and `sys.path`, the directories and the files are exactly as before. -/
theorem declined_token_stops_sequence (s : SysState) (v : TokVal)
    (f : FetchOutcome) (hroot : VIRTUAL_ROOT ∉ s.path)
    (hv : v = TokVal.other ∨ v = TokVal.vstr "") :
    (applyCustomPatch s (TokenOutcome.reply v) f).2 = none ∧
    (applyCustomPatch s (TokenOutcome.reply v) f).1.fetches = s.fetches ∧
    (applyCustomPatch s (TokenOutcome.reply v) f).1.files = s.files ∧
    (applyCustomPatch s (TokenOutcome.reply v) f).1.dirs = s.dirs ∧
    (applyCustomPatch s (TokenOutcome.reply v) f).1.path = s.path := by
  rcases hv with rfl | rfl <;> simp [applyCustomPatch, hroot]

/-- Witness for C7 at the empty state with an empty-string token value. -/
theorem declined_token_stops_sequence_witness :
    (VIRTUAL_ROOT ∉ (SysState.mk [] [] [] 0 0 0 1 []).path ∧
      (TokVal.vstr "" = TokVal.other ∨ TokVal.vstr "" = TokVal.vstr "")) ∧
    ((applyCustomPatch (SysState.mk [] [] [] 0 0 0 1 [])
        (TokenOutcome.reply (TokVal.vstr "")) FetchOutcome.netError).2 = none ∧
      (applyCustomPatch (SysState.mk [] [] [] 0 0 0 1 [])
        (TokenOutcome.reply (TokVal.vstr "")) FetchOutcome.netError).1.fetches =
        (SysState.mk [] [] [] 0 0 0 1 []).fetches ∧
      (applyCustomPatch (SysState.mk [] [] [] 0 0 0 1 [])
        (TokenOutcome.reply (TokVal.vstr "")) FetchOutcome.netError).1.files =
        (SysState.mk [] [] [] 0 0 0 1 []).files ∧
      (applyCustomPatch (SysState.mk [] [] [] 0 0 0 1 [])
        (TokenOutcome.reply (TokVal.vstr "")) FetchOutcome.netError).1.dirs =
        (SysState.mk [] [] [] 0 0 0 1 []).dirs ∧
      (applyCustomPatch (SysState.mk [] [] [] 0 0 0 1 [])
        (TokenOutcome.reply (TokVal.vstr "")) FetchOutcome.netError).1.path =
        (SysState.mk [] [] [] 0 0 0 1 []).path) :=
  ⟨⟨by decide, Or.inr rfl⟩,
    declined_token_stops_sequence (SysState.mk [] [] [] 0 0 0 1 [])
      (TokVal.vstr "") FetchOutcome.netError (by decide) (Or.inr rfl)⟩

/-- C5 counterexample: an HTTP 401 response whose body is valid JSON is
not an error for `get_data` — the status is never checked — and a run
receiving such a response completes with no propagated error while
modifying `sys.path`; the claim's "fails on non-2xx status" and
"state unchanged" both fail here. -/
theorem http_401_not_propagated_counterexample :
    getData (FetchOutcome.resp 401 (BodyJson.obj (some []))) =
        Except.ok (some []) ∧
    (applyCustomPatch (SysState.mk [] [] [] 0 0 0 1 [])
        (TokenOutcome.reply (TokVal.vstr "tok"))
        (FetchOutcome.resp 401 (BodyJson.obj (some [])))).2 = none ∧
    (applyCustomPatch (SysState.mk [] [] [] 0 0 0 1 [])
        (TokenOutcome.reply (TokVal.vstr "tok"))
        (FetchOutcome.resp 401 (BodyJson.obj (some [])))).1.path =
      [VIRTUAL_ROOT] := by
  refine ⟨rfl, ?_, ?_⟩ <;> decide

/-- C5 (amended): the bundle fetch propagates a network error and a JSON
parse error (and no retry is modelled); the HTTP status is never
inspected, so any response with a parseable JSON body — including a
401 — is returned as data; when a 401 response's body is not valid
JSON, the run aborts with the propagated parse error and `sys.path`,
the directories and the files are unchanged from before the run. -/
theorem bundle_fetch_failure_modes (s : SysState) (t : String) (st : Nat)
    (hroot : VIRTUAL_ROOT ∉ s.path) (ht : t ≠ "") :
    getData FetchOutcome.netError = Except.error RunErr.network ∧
    getData (FetchOutcome.resp st BodyJson.malformed) =
        Except.error RunErr.jsonParse ∧
    (∀ code, getData (FetchOutcome.resp st (BodyJson.obj code)) =
        Except.ok code) ∧
    ((applyCustomPatch s (TokenOutcome.reply (TokVal.vstr t))
        (FetchOutcome.resp 401 BodyJson.malformed)).2 =
          some RunErr.jsonParse ∧
      (applyCustomPatch s (TokenOutcome.reply (TokVal.vstr t))
        (FetchOutcome.resp 401 BodyJson.malformed)).1.path = s.path ∧
      (applyCustomPatch s (TokenOutcome.reply (TokVal.vstr t))
        (FetchOutcome.resp 401 BodyJson.malformed)).1.dirs = s.dirs ∧
      (applyCustomPatch s (TokenOutcome.reply (TokVal.vstr t))
        (FetchOutcome.resp 401 BodyJson.malformed)).1.files = s.files) := by
  refine ⟨rfl, rfl, fun code => rfl, ?_⟩
  simp [applyCustomPatch, hroot, ht, getData]

/-- Witness for C5 at the empty state with token "tok" and status 500
for the generic conjuncts. -/
theorem bundle_fetch_failure_modes_witness :
    (VIRTUAL_ROOT ∉ (SysState.mk [] [] [] 0 0 0 1 []).path ∧ "tok" ≠ "") ∧
    (getData FetchOutcome.netError = Except.error RunErr.network ∧
      getData (FetchOutcome.resp 500 BodyJson.malformed) =
        Except.error RunErr.jsonParse ∧
      (∀ code, getData (FetchOutcome.resp 500 (BodyJson.obj code)) =
        Except.ok code) ∧
      ((applyCustomPatch (SysState.mk [] [] [] 0 0 0 1 [])
          (TokenOutcome.reply (TokVal.vstr "tok"))
          (FetchOutcome.resp 401 BodyJson.malformed)).2 =
            some RunErr.jsonParse ∧
        (applyCustomPatch (SysState.mk [] [] [] 0 0 0 1 [])
          (TokenOutcome.reply (TokVal.vstr "tok"))
          (FetchOutcome.resp 401 BodyJson.malformed)).1.path =
          (SysState.mk [] [] [] 0 0 0 1 []).path ∧
        (applyCustomPatch (SysState.mk [] [] [] 0 0 0 1 [])
          (TokenOutcome.reply (TokVal.vstr "tok"))
          (FetchOutcome.resp 401 BodyJson.malformed)).1.dirs =
          (SysState.mk [] [] [] 0 0 0 1 []).dirs ∧
        (applyCustomPatch (SysState.mk [] [] [] 0 0 0 1 [])
          (TokenOutcome.reply (TokVal.vstr "tok"))
          (FetchOutcome.resp 401 BodyJson.malformed)).1.files =
          (SysState.mk [] [] [] 0 0 0 1 []).files)) :=
  ⟨⟨by decide, by decide⟩,
    bundle_fetch_failure_modes (SysState.mk [] [] [] 0 0 0 1 []) "tok" 500
      (by decide) (by decide)⟩

/-- C6: at the failing input — the token exchange raises while its reply
is awaited — `apply_custom_patch` escapes before `removeEventListener`
(line 101), leaving the temporary listener registered (count 1 from 0);
on the success path the listener is removed (count back to 0).  The
source has no try/finally around the exchange, so the removal the claim
requires on the failure path does not happen. -/
theorem listener_leak_on_failed_exchange :
    (applyCustomPatch (SysState.mk [] [] [] 0 0 0 1 []) TokenOutcome.raise
        FetchOutcome.netError).1.listeners = 1 ∧
    (applyCustomPatch (SysState.mk [] [] [] 0 0 0 1 [])
        (TokenOutcome.reply (TokVal.vstr "tok"))
        (FetchOutcome.resp 200 (BodyJson.obj (some [])))).1.listeners = 0 := by
  constructor <;> decide

end CustomPatch

